import Mathlib

/-!
Shallow embedding of the Asistio event-management API (src/app.py, src/s3_utils.py).

The persistent store (two SQLAlchemy-backed tables) is modelled as a `Store`
holding the rows of the `events` and `attendees` tables together with the
auto-increment counters for their primary keys.  Each Flask route of
`src/app.py` becomes a Lean function from the store (and the typed request
payload) to an `Except ApiError` result; a route that commits returns the new
store, a route that returns an error response (400/404) returns the error and
— matching Flask-SQLAlchemy's rollback of uncommitted sessions at request
teardown — leaves the store unchanged.  JSON request bodies are modelled as
structures of `Option`-typed fields: `none` models an absent key (for `title`
in the event update route, whose `payload.get("title") is not None` guard
also treats an explicit JSON `null` as absent).  Timestamps are modelled by a
`DateTime` record; `datetime.utcnow()` defaults become explicit `now`
arguments to the creating operations.
-/

deriving instance DecidableEq for Except

namespace Asistio

/-- Timestamp record modelling a Python `datetime` value (date and time of
day; microseconds and timezones are not used by the routes). -/
structure DateTime where
  year : Nat
  month : Nat
  day : Nat
  hour : Nat
  minute : Nat
  second : Nat
deriving DecidableEq, Repr

/-- Injective chronological key: every factor strictly bounds the
corresponding calendar field, so on calendar-valid datetimes the numeric
order of keys is the chronological order. -/
def DateTime.key (d : DateTime) : Nat :=
  ((((d.year * 16 + d.month) * 32 + d.day) * 32 + d.hour) * 64 + d.minute) * 64 + d.second

/-- Chronological comparison on `DateTime`, the order the database uses for
`ORDER BY` on a datetime column. -/
def dtLE (a b : DateTime) : Bool :=
  a.key ≤ b.key

/-- Model of Python `(y % 4 == 0 and y % 100 != 0) or y % 400 == 0`, the
leap-year rule `datetime` validates days against. -/
def isLeapYear (y : Nat) : Bool :=
  (y % 4 == 0 && y % 100 != 0) || y % 400 == 0

/-- Number of days of month `m` in year `y`, as validated by `datetime`. -/
def daysInMonth (y m : Nat) : Nat :=
  if m = 2 then (if isLeapYear y then 29 else 28)
  else if m = 4 || m = 6 || m = 9 || m = 11 then 30
  else 31

/-- Range validation performed by the `datetime` constructor: a datetime is
accepted when every field is in calendar range. -/
def mkDateTime? (y mo d h mi s : Nat) : Option DateTime :=
  if 1 ≤ y && y ≤ 9999 && 1 ≤ mo && mo ≤ 12 && 1 ≤ d && d ≤ daysInMonth y mo
      && h ≤ 23 && mi ≤ 59 && s ≤ 59 then
    some ⟨y, mo, d, h, mi, s⟩
  else
    none

/-- Value of a decimal digit character, `none` on a non-digit. -/
def digitVal? (c : Char) : Option Nat :=
  if c.isDigit then some (c.toNat - 48) else none

/-- Two decimal digits. -/
def num2? (a b : Char) : Option Nat := do
  let x ← digitVal? a
  let y ← digitVal? b
  pure (10 * x + y)

/-- Four decimal digits. -/
def num4? (a b c d : Char) : Option Nat := do
  let x ← num2? a b
  let y ← num2? c d
  pure (100 * x + y)

/-- Time-of-day part `HH`, `HH:MM` or `HH:MM:SS` of an ISO string. -/
def parseTime? : List Char → Option (Nat × Nat × Nat)
  | [h1, h2] => do
    let h ← num2? h1 h2
    pure (h, 0, 0)
  | [h1, h2, ':', m1, m2] => do
    let h ← num2? h1 h2
    let m ← num2? m1 m2
    pure (h, m, 0)
  | [h1, h2, ':', m1, m2, ':', s1, s2] => do
    let h ← num2? h1 h2
    let m ← num2? m1 m2
    let s ← num2? s1 s2
    pure (h, m, s)
  | _ => none

/-- Model of Python `datetime.fromisoformat` as called by the routes: a
`YYYY-MM-DD` date, optionally followed by a single separator character and a
time of day; every field is range-checked.  Fractional seconds and UTC
offsets, which the routes never produce, are not modelled and parse to
`none` (Python would accept some of them; no claim depends on such inputs).
Any string Python rejects is rejected here as well. -/
def fromisoformat (str : String) : Option DateTime :=
  match str.data with
  | [y1, y2, y3, y4, '-', m1, m2, '-', d1, d2] => do
    let y ← num4? y1 y2 y3 y4
    let mo ← num2? m1 m2
    let d ← num2? d1 d2
    mkDateTime? y mo d 0 0 0
  | y1 :: y2 :: y3 :: y4 :: '-' :: m1 :: m2 :: '-' :: d1 :: d2 :: _sep :: rest => do
    let y ← num4? y1 y2 y3 y4
    let mo ← num2? m1 m2
    let d ← num2? d1 d2
    let (h, mi, s) ← parseTime? rest
    mkDateTime? y mo d h mi s
  | _ => none

/-- Model of `parse_datetime_or_none` (src/app.py:70-76): falsy input (absent
key or empty string) and any parse failure yield `none`; no error escapes. -/
def parse_datetime_or_none (value : Option String) : Option DateTime :=
  match value with
  | none => none
  | some s => if s = "" then none else fromisoformat s

/-- The allowed attendee classifications (src/app.py:7). -/
def VALID_CLASSIFICATIONS : List String :=
  ["Sponsor", "VIP", "Platino", "General"]

/-- The message of the classification validation error
(src/app.py:185,206); the Python f-string renders the list with quoted
elements, which this model omits. -/
def classificationMsg : String :=
  "classification must be one of [Sponsor, VIP, Platino, General]"

/-- Row of the `events` table (src/app.py:18-27). -/
structure EventRec where
  id : Nat
  title : String
  description : String
  location : String
  start_datetime : Option DateTime
  created_at : DateTime
deriving DecidableEq, Repr

/-- Row of the `attendees` table (src/app.py:41-49). -/
structure AttendeeRec where
  id : Nat
  event_id : Nat
  name : String
  email : String
  classification : String
  checked_in : Bool
  created_at : DateTime
deriving DecidableEq, Repr

/-- The persistent state: the two tables plus their auto-increment
primary-key counters. -/
structure Store where
  events : List EventRec
  attendees : List AttendeeRec
  nextEventId : Nat
  nextAttendeeId : Nat
deriving DecidableEq, Repr

/-- Serialized form of an Event (src/app.py:29-38).  `attendees_count` is
`len(self.attendees)`, the live relationship query over the attendees
table. -/
structure EventDict where
  id : Nat
  title : String
  description : String
  location : String
  start_datetime : Option DateTime
  created_at : DateTime
  attendees_count : Nat
deriving DecidableEq, Repr

/-- Model of `Event.to_dict` (src/app.py:29-38): the row's own columns plus
the live count of attendee rows referencing it. -/
def event_to_dict (s : Store) (e : EventRec) : EventDict :=
  { id := e.id
    title := e.title
    description := e.description
    location := e.location
    start_datetime := e.start_datetime
    created_at := e.created_at
    attendees_count := (s.attendees.filter (fun a => a.event_id == e.id)).length }

/-- An `Attendee.to_dict` (src/app.py:51-60) serializes every column
unchanged, so attendee responses are modelled by the row itself. -/
def attendee_to_dict (a : AttendeeRec) : AttendeeRec := a

/-- Error taxonomy of the HTTP boundary: 404 (`get_or_404`) and 400 with a
message (the inline `jsonify({"error": ...}), 400` returns). -/
inductive ApiError where
  | notFound
  | validation (msg : String)
deriving DecidableEq, Repr

/-- Model of `Event.query.get(event_id)`: the row with that primary key. -/
def findEvent (s : Store) (id : Nat) : Option EventRec :=
  s.events.find? (fun e => e.id == id)

/-- Model of `Attendee.query.get(attendee_id)`. -/
def findAttendee (s : Store) (id : Nat) : Option AttendeeRec :=
  s.attendees.find? (fun a => a.id == id)

/-- Commit of an UPDATE of the attendee row with primary key `aid`. -/
def replaceAttendee (s : Store) (aid : Nat) (a : AttendeeRec) : Store :=
  { s with attendees := s.attendees.map (fun x => if x.id == aid then a else x) }

/-- Commit of an UPDATE of the event row with primary key `id`. -/
def replaceEvent (s : Store) (id : Nat) (e : EventRec) : Store :=
  { s with events := s.events.map (fun x => if x.id == id then e else x) }

/-- Lowercasing used to model case-insensitive SQL `ilike` and Python
`str.lower()`. -/
def lowerStr (s : String) : String :=
  ⟨s.data.map Char.toLower⟩

/-- Case-insensitive substring test.  This is the SPEC's reading of the
query filter ("only Events whose title contains it case-insensitively"); it
is stated here to be compared with the LIKE-based model `ilike` below,
which is what the source executes. -/
def containsCI (hay pat : String) : Bool :=
  decide ((lowerStr pat).data <:+: (lowerStr hay).data)

/-- SQL LIKE pattern matching over character lists: `%` matches any
sequence (including the empty one), `_` matches exactly one character, any
other pattern character matches itself. -/
def likeMatch : List Char → List Char → Bool
  | [], t => t.isEmpty
  | p :: ps, t =>
    if p = '%' then t.tails.any (fun u => likeMatch ps u)
    else
      match t with
      | [] => false
      | c :: ts => (if p = '_' then true else p == c) && likeMatch ps ts

/-- Model of SQLAlchemy `ilike`: case-insensitive LIKE, i.e. LIKE over both
sides lowercased.  The route builds the pattern as `f"%{q}%"`, so wildcard
characters inside `q` are live wildcards, not literals. -/
def ilike (hay pat : String) : Bool :=
  likeMatch (lowerStr pat).data (lowerStr hay).data

/-- Database ordering of `Event.start_datetime.asc().nullslast()`
(src/app.py:92): ascending with `NULL` values after every value. -/
def optDtLE : Option DateTime → Option DateTime → Bool
  | none, none => true
  | none, some _ => false
  | some _, none => true
  | some a, some b => dtLE a b

/-- Comparison of event rows used by the event list query. -/
def eventLE (a b : EventRec) : Prop :=
  optDtLE a.start_datetime b.start_datetime = true

instance : DecidableRel eventLE :=
  fun a b => inferInstanceAs (Decidable (_ = true))

instance : IsTotal EventRec eventLE where
  total := by
    intro a b
    unfold eventLE
    cases ha : a.start_datetime <;> cases hb : b.start_datetime <;>
      simp [optDtLE, dtLE] <;> omega

instance : IsTrans EventRec eventLE where
  trans := by
    intro a b c
    unfold eventLE
    cases a.start_datetime <;> cases b.start_datetime <;> cases c.start_datetime <;>
      simp [optDtLE, dtLE] <;> omega

/-- Comparison of attendee rows used by `order_by(Attendee.created_at.asc())`
(src/app.py:165). -/
def attLE (a b : AttendeeRec) : Prop :=
  dtLE a.created_at b.created_at = true

instance : DecidableRel attLE :=
  fun a b => inferInstanceAs (Decidable (_ = true))

instance : IsTotal AttendeeRec attLE where
  total := by
    intro a b
    unfold attLE
    simp [dtLE]
    omega

instance : IsTrans AttendeeRec attLE where
  trans := by
    intro a b c
    unfold attLE
    simp [dtLE]
    omega

/-- The query built by `list_events` before windowing (src/app.py:92-94):
sort by `start_datetime` ascending nulls last, then — only for a truthy `q`
(Python `if q:` skips the filter for an absent or empty string) — keep the
rows whose title matches `ilike(f"%{q}%")`. -/
def eventsQuery (s : Store) (q : Option String) : List EventRec :=
  match q with
  | none => List.insertionSort eventLE s.events
  | some qs =>
    if qs = "" then List.insertionSort eventLE s.events
    else (List.insertionSort eventLE s.events).filter
      (fun e => ilike e.title ("%" ++ qs ++ "%"))

/-- Model of `list_events` (src/app.py:85-97): the sorted filtered query,
windowed by `offset` then `limit`, serialized.  The route always answers
200; an empty window is the empty list. -/
def list_events (s : Store) (q : Option String) (limit offset : Nat) : List EventDict :=
  (((eventsQuery s q).drop offset).take limit).map (event_to_dict s)

/-- Model of `get_event` (src/app.py:100-106): 404 when the id is missing,
otherwise the serialized event together with its attendee rows. -/
def get_event (s : Store) (id : Nat) : Except ApiError (EventDict × List AttendeeRec) :=
  match findEvent s id with
  | none => .error .notFound
  | some e => .ok (event_to_dict s e, s.attendees.filter (fun a => a.event_id == e.id))

/-- Typed JSON body of `POST /events`. -/
structure CreateEventPayload where
  title : Option String
  description : Option String
  location : Option String
  start_datetime : Option String
deriving DecidableEq, Repr

/-- Model of `create_event` (src/app.py:109-122): a falsy `title` (absent or
empty) is a 400; otherwise a new row is inserted with the generated primary
key and `created_at := now`, and the serialized row is returned. -/
def create_event (s : Store) (p : CreateEventPayload) (now : DateTime) :
    Except ApiError (EventDict × Store) :=
  match p.title with
  | none => .error (.validation "title is required")
  | some t =>
    if t = "" then .error (.validation "title is required")
    else
      let e : EventRec :=
        { id := s.nextEventId
          title := t
          description := p.description.getD ""
          location := p.location.getD ""
          start_datetime := parse_datetime_or_none p.start_datetime
          created_at := now }
      let s' : Store := { s with events := s.events ++ [e], nextEventId := s.nextEventId + 1 }
      .ok (event_to_dict s' e, s')

/-- Typed JSON body of `PUT/PATCH /events/{id}`.  The outer `Option` of
`start_datetime` models key presence (`"start_datetime" in payload`), the
inner one the string-or-null value handed to `parse_datetime_or_none`. -/
structure UpdateEventPayload where
  title : Option String
  description : Option String
  location : Option String
  start_datetime : Option (Option String)
deriving DecidableEq, Repr

/-- Model of `update_event` (src/app.py:125-139): 404 when the id is
missing; each supplied field is assigned in the order of the source —
`title` whenever it is not `None`, with no emptiness check — and the row is
committed and serialized. -/
def update_event (s : Store) (id : Nat) (p : UpdateEventPayload) :
    Except ApiError (EventDict × Store) :=
  match findEvent s id with
  | none => .error .notFound
  | some e =>
    let e₁ := match p.title with
      | none => e
      | some t => { e with title := t }
    let e₂ := match p.description with
      | none => e₁
      | some d => { e₁ with description := d }
    let e₃ := match p.location with
      | none => e₂
      | some l => { e₂ with location := l }
    let e₄ := match p.start_datetime with
      | none => e₃
      | some v => { e₃ with start_datetime := parse_datetime_or_none v }
    let s' := replaceEvent s id e₄
    .ok (event_to_dict s' e₄, s')

/-- Model of `delete_event` (src/app.py:142-147): 404 when the id is
missing; otherwise the row is deleted and — through the
`cascade="all, delete-orphan"` relationship (src/app.py:27) — so is every
attendee row referencing it. -/
def delete_event (s : Store) (id : Nat) : Except ApiError Store :=
  match findEvent s id with
  | none => .error .notFound
  | some _ =>
    .ok { s with
      events := s.events.filter (fun x => !(x.id == id))
      attendees := s.attendees.filter (fun a => !(a.event_id == id)) }

/-- Normalization of the `checked_in` query parameter (src/app.py:160-164):
the listed truthy and falsy tokens select a filter, anything else selects
none. -/
def checkedInFilter (ci : String) : Option Bool :=
  if lowerStr ci = "true" || lowerStr ci = "1" || lowerStr ci = "yes" then some true
  else if lowerStr ci = "false" || lowerStr ci = "0" || lowerStr ci = "no" then some false
  else none

/-- Model of `list_attendees` (src/app.py:151-166): 404 when the event is
missing; otherwise the event's attendee rows, optionally filtered by exact
classification (skipped for a falsy value) and by the normalized
`checked_in` flag, ordered by `created_at` ascending. -/
def list_attendees (s : Store) (event_id : Nat)
    (classification checked_in : Option String) : Except ApiError (List AttendeeRec) :=
  match findEvent s event_id with
  | none => .error .notFound
  | some _ =>
    let q₀ := s.attendees.filter (fun a => a.event_id == event_id)
    let q₁ :=
      match classification with
      | none => q₀
      | some c => if c = "" then q₀ else q₀.filter (fun a => a.classification == c)
    let q₂ :=
      match checked_in with
      | none => q₁
      | some ci =>
        match checkedInFilter ci with
        | none => q₁
        | some b => q₁.filter (fun a => a.checked_in == b)
    .ok (List.insertionSort attLE q₂)

/-- Model of `get_attendee` (src/app.py:169-172). -/
def get_attendee (s : Store) (id : Nat) : Except ApiError AttendeeRec :=
  match findAttendee s id with
  | none => .error .notFound
  | some a => .ok (attendee_to_dict a)

/-- Typed JSON body of `POST /events/{id}/attendees`. -/
structure CreateAttendeePayload where
  name : Option String
  email : Option String
  classification : Option String
deriving DecidableEq, Repr

/-- The row built by the `Attendee(...)` constructor call of
`create_attendee` (src/app.py:187): generated primary key, `checked_in`
column default `False`, `created_at` default `now`. -/
def newAttendee (s : Store) (eid : Nat) (nm em cl : String) (now : DateTime) : AttendeeRec :=
  { id := s.nextAttendeeId
    event_id := eid
    name := nm
    email := em
    classification := cl
    checked_in := false
    created_at := now }

/-- Commit of `db.session.add(a)` for a fresh attendee row. -/
def addAttendee (s : Store) (a : AttendeeRec) : Store :=
  { s with attendees := s.attendees ++ [a], nextAttendeeId := s.nextAttendeeId + 1 }

/-- Model of `create_attendee` (src/app.py:175-190): 404 when the event is
missing; 400 when `name` is falsy or the (defaulted) classification is not
allowed; otherwise the new row is inserted and returned. -/
def create_attendee (s : Store) (event_id : Nat) (p : CreateAttendeePayload)
    (now : DateTime) : Except ApiError (AttendeeRec × Store) :=
  match findEvent s event_id with
  | none => .error .notFound
  | some _ =>
    let email := p.email.getD ""
    let classification := p.classification.getD "General"
    match p.name with
    | none => .error (.validation "name is required")
    | some n =>
      if n = "" then .error (.validation "name is required")
      else if !(VALID_CLASSIFICATIONS.contains classification) then
        .error (.validation classificationMsg)
      else
        let a := newAttendee s event_id n email classification now
        .ok (a, addAttendee s a)

/-- Typed JSON body of `PUT/PATCH /attendees/{id}`. -/
structure UpdateAttendeePayload where
  name : Option String
  email : Option String
  classification : Option String
  checked_in : Option Bool
deriving DecidableEq, Repr

/-- The `name` branch of `update_attendee` (src/app.py:197-200): a supplied
empty name is a 400, a supplied non-empty name is assigned. -/
def applyName (a : AttendeeRec) (v : Option String) : Except ApiError AttendeeRec :=
  match v with
  | none => .ok a
  | some n =>
    if n = "" then .error (.validation "name cannot be empty")
    else .ok { a with name := n }

/-- The `email` branch of `update_attendee` (src/app.py:201-202). -/
def applyEmail (a : AttendeeRec) (v : Option String) : AttendeeRec :=
  match v with
  | none => a
  | some em => { a with email := em }

/-- The `classification` branch of `update_attendee` (src/app.py:203-207):
a supplied value outside the allowed set is a 400. -/
def applyClassification (a : AttendeeRec) (v : Option String) : Except ApiError AttendeeRec :=
  match v with
  | none => .ok a
  | some cl =>
    if VALID_CLASSIFICATIONS.contains cl then .ok { a with classification := cl }
    else .error (.validation classificationMsg)

/-- The `checked_in` branch of `update_attendee` (src/app.py:208-209). -/
def applyCheckedIn (a : AttendeeRec) (v : Option Bool) : AttendeeRec :=
  match v with
  | none => a
  | some b => { a with checked_in := b }

/-- Model of `update_attendee` (src/app.py:193-211), field by field in
source order; an early 400 return leaves the session uncommitted, which the
framework rolls back, so the store is unchanged exactly when the result is
an error. -/
def update_attendee (s : Store) (aid : Nat) (p : UpdateAttendeePayload) :
    Except ApiError (AttendeeRec × Store) :=
  match findAttendee s aid with
  | none => .error .notFound
  | some a =>
    match applyName a p.name with
    | .error err => .error err
    | .ok a₁ =>
      match applyClassification (applyEmail a₁ p.email) p.classification with
      | .error err => .error err
      | .ok a₃ =>
        let a₄ := applyCheckedIn a₃ p.checked_in
        .ok (a₄, replaceAttendee s aid a₄)

/-- Model of `delete_attendee` (src/app.py:214-219). -/
def delete_attendee (s : Store) (aid : Nat) : Except ApiError Store :=
  match findAttendee s aid with
  | none => .error .notFound
  | some _ => .ok { s with attendees := s.attendees.filter (fun x => !(x.id == aid)) }

/-- Model of `checkin_attendee` (src/app.py:223-233): 404 when the id is
missing; a body carrying `checked_in` sets the flag to that value, a body
without it (or no JSON body at all, `get_json(silent=True) or {}`) toggles
it. -/
def checkin_attendee (s : Store) (aid : Nat) (p : Option Bool) :
    Except ApiError (AttendeeRec × Store) :=
  match findAttendee s aid with
  | none => .error .notFound
  | some a =>
    let a' :=
      match p with
      | some b => { a with checked_in := b }
      | none => { a with checked_in := !a.checked_in }
    .ok (a', replaceAttendee s aid a')

/-- One request to either resource controller, with its payload. -/
inductive Op where
  | createEvent (p : CreateEventPayload) (now : DateTime)
  | updateEvent (id : Nat) (p : UpdateEventPayload)
  | deleteEvent (id : Nat)
  | createAttendee (eid : Nat) (p : CreateAttendeePayload) (now : DateTime)
  | updateAttendee (aid : Nat) (p : UpdateAttendeePayload)
  | deleteAttendee (aid : Nat)
  | checkinAttendee (aid : Nat) (p : Option Bool)
deriving DecidableEq, Repr

/-- Store outcome of an operation: the committed store, or the error
response of the failed request. -/
def runOpE : Op → Store → Except ApiError Store
  | .createEvent p now, s => (create_event s p now).map (fun r => r.2)
  | .updateEvent id p, s => (update_event s id p).map (fun r => r.2)
  | .deleteEvent id, s => delete_event s id
  | .createAttendee eid p now, s => (create_attendee s eid p now).map (fun r => r.2)
  | .updateAttendee aid p, s => (update_attendee s aid p).map (fun r => r.2)
  | .deleteAttendee aid, s => delete_attendee s aid
  | .checkinAttendee aid p, s => (checkin_attendee s aid p).map (fun r => r.2)

/-- State after an operation: the committed store on success, the unchanged
store when the request was answered with an error. -/
def runOp (op : Op) (s : Store) : Store :=
  match runOpE op s with
  | .ok s' => s'
  | .error _ => s

/-- Model of the filename handling of `upload_file_to_s3`
(src/s3_utils.py:13): groups of a character list split on a separator. -/
def splitOnChar (c : Char) : List Char → List (List Char)
  | [] => [[]]
  | x :: xs =>
    match splitOnChar c xs with
    | [] => [[x]]
    | g :: gs => if x = c then [] :: g :: gs else (x :: g) :: gs

/-- Model of `file.filename.split(".")[-1]` (src/s3_utils.py:13). -/
def s3_ext (filename : String) : String :=
  ⟨((splitOnChar '.' filename.data).getLast?).getD []⟩

/-- Model of the storage key `f"events/{uuid.uuid4()}.{ext}"`
(src/s3_utils.py:14); the random uuid is an explicit argument. -/
def s3_key (uuid filename : String) : String :=
  "events/" ++ uuid ++ "." ++ s3_ext filename

/-- Model of the URL returned by `upload_file_to_s3` (src/s3_utils.py:26). -/
def upload_file_to_s3 (bucket region uuid filename : String) : String :=
  "https://" ++ bucket ++ ".s3." ++ region ++ ".amazonaws.com/" ++ s3_key uuid filename

/-!
Helper lemmas about primary-key lookup and row replacement.
-/

lemma find?_map_replace (l : List AttendeeRec) (aid : Nat) (a' : AttendeeRec)
    (h : a'.id = aid) (h2 : (l.find? (fun x => x.id == aid)).isSome) :
    (l.map (fun x => if x.id == aid then a' else x)).find? (fun x => x.id == aid) = some a' := by
  induction l with
  | nil => simp at h2
  | cons x xs ih =>
    by_cases hx : x.id = aid
    · simp [List.find?_cons, hx, h]
    · have hxb : (x.id == aid) = false := by simpa using hx
      rw [List.find?_cons_of_neg _ (by simp [hxb])] at h2
      simp only [List.map_cons, hxb, Bool.false_eq_true, if_false]
      rw [List.find?_cons_of_neg _ (by simp [hxb])]
      exact ih h2

lemma map_replace_twice (l : List AttendeeRec) (aid : Nat) (a' a'' : AttendeeRec)
    (h : a'.id = aid) :
    (l.map (fun x => if x.id == aid then a' else x)).map (fun x => if x.id == aid then a'' else x)
      = l.map (fun x => if x.id == aid then a'' else x) := by
  rw [List.map_map]
  apply List.map_congr_left
  intro x _
  by_cases hx : x.id = aid <;> simp [hx, h]

lemma map_replace_self (l : List AttendeeRec) (aid : Nat) (a : AttendeeRec)
    (hnd : (l.map (fun x => x.id)).Nodup) (hf : l.find? (fun x => x.id == aid) = some a) :
    l.map (fun x => if x.id == aid then a else x) = l := by
  induction l with
  | nil => simp at hf
  | cons x xs ih =>
    simp only [List.map_cons, List.nodup_cons] at hnd
    by_cases hx : x.id = aid
    · rw [List.find?_cons_of_pos _ (by simpa using hx)] at hf
      have hxa : x = a := by simpa using hf
      subst hxa
      simp only [List.map_cons, if_pos (by simpa using hx)]
      have hrest : ∀ y ∈ xs, (if y.id == aid then x else y) = y := by
        intro y hy
        have hyne : y.id ≠ aid := by
          intro hya
          exact hnd.1 (List.mem_map.mpr ⟨y, hy, by omega⟩)
        simp [hyne]
      rw [List.map_congr_left hrest]
      simp
    · have hxb : (x.id == aid) = false := by simpa using hx
      rw [List.find?_cons_of_neg _ (by simp [hxb])] at hf
      simp only [List.map_cons, hxb, Bool.false_eq_true, if_false, ih hnd.2 hf]

lemma findAttendee_replaceAttendee (s : Store) (aid : Nat) (a' : AttendeeRec)
    (h : a'.id = aid) (h2 : (findAttendee s aid).isSome) :
    findAttendee (replaceAttendee s aid a') aid = some a' :=
  find?_map_replace s.attendees aid a' h h2

lemma replaceAttendee_replaceAttendee (s : Store) (aid : Nat) (a' a'' : AttendeeRec)
    (h : a'.id = aid) :
    replaceAttendee (replaceAttendee s aid a') aid a'' = replaceAttendee s aid a'' := by
  simp only [replaceAttendee]
  rw [map_replace_twice s.attendees aid a' a'' h]

lemma replaceAttendee_self (s : Store) (aid : Nat) (a : AttendeeRec)
    (hnd : (s.attendees.map (fun x => x.id)).Nodup) (hf : findAttendee s aid = some a) :
    replaceAttendee s aid a = s := by
  cases s
  simp only [replaceAttendee]
  rw [map_replace_self _ aid a hnd hf]

/-!
Claim theorems.
-/

/-- C1: for an existing attendee, `checkin_attendee` with no explicit
`checked_in` in the body toggles the flag, and toggling twice returns both
the attendee and the whole store to their original state (non-idempotent
toggle); with an explicit boolean the flag is set to that value, and a
second identical call returns exactly the same attendee and store
(idempotent explicit set). -/
theorem checkin_toggle_and_set (s : Store) (aid : Nat) (a : AttendeeRec) (b : Bool)
    (hnd : (s.attendees.map (fun x => x.id)).Nodup)
    (hf : findAttendee s aid = some a) :
    checkin_attendee s aid none
      = .ok ({ a with checked_in := !a.checked_in },
             replaceAttendee s aid { a with checked_in := !a.checked_in }) ∧
    checkin_attendee (replaceAttendee s aid { a with checked_in := !a.checked_in }) aid none
      = .ok (a, s) ∧
    checkin_attendee s aid (some b)
      = .ok ({ a with checked_in := b }, replaceAttendee s aid { a with checked_in := b }) ∧
    checkin_attendee (replaceAttendee s aid { a with checked_in := b }) aid (some b)
      = .ok ({ a with checked_in := b }, replaceAttendee s aid { a with checked_in := b }) := by
  have haid : a.id = aid := by
    have := List.find?_some hf
    simpa using this
  have hsome : (findAttendee s aid).isSome := by rw [hf]; rfl
  obtain ⟨id0, evid, nm, em, cl, ci, ca⟩ := a
  simp only at haid
  subst haid
  refine ⟨?_, ?_, ?_, ?_⟩
  · simp [checkin_attendee, hf]
  · have hfind := findAttendee_replaceAttendee s id0
      (AttendeeRec.mk id0 evid nm em cl (!ci) ca) rfl hsome
    simp only [checkin_attendee, hfind, Bool.not_not]
    rw [replaceAttendee_replaceAttendee s id0 _ _ rfl]
    rw [replaceAttendee_self s id0 _ hnd hf]
  · simp [checkin_attendee, hf]
  · have hfind := findAttendee_replaceAttendee s id0
      (AttendeeRec.mk id0 evid nm em cl b ca) rfl hsome
    simp only [checkin_attendee, hfind]
    rw [replaceAttendee_replaceAttendee s id0 _ _ rfl]

/-- C10: a successful check-in changes at most the `checked_in` flag: every
other column of the attendee row is unchanged, the events table and the
id counters are untouched, and the attendees table changes only at the row
with the requested primary key. -/
theorem checkin_frame (s : Store) (aid : Nat) (p : Option Bool) (a a' : AttendeeRec) (s' : Store)
    (hf : findAttendee s aid = some a)
    (h : checkin_attendee s aid p = .ok (a', s')) :
    a'.id = a.id ∧ a'.event_id = a.event_id ∧ a'.name = a.name ∧ a'.email = a.email ∧
    a'.classification = a.classification ∧ a'.created_at = a.created_at ∧
    s'.events = s.events ∧ s'.nextEventId = s.nextEventId ∧
    s'.nextAttendeeId = s.nextAttendeeId ∧
    s'.attendees = s.attendees.map (fun x => if x.id == aid then a' else x) := by
  obtain ⟨id0, evid, nm, em, cl, ci, ca⟩ := a
  cases p with
  | none =>
    simp only [checkin_attendee, hf, Except.ok.injEq, Prod.mk.injEq] at h
    obtain ⟨ha, hs⟩ := h
    subst ha
    subst hs
    simp [replaceAttendee]
  | some b =>
    simp only [checkin_attendee, hf, Except.ok.injEq, Prod.mk.injEq] at h
    obtain ⟨ha, hs⟩ := h
    subst ha
    subst hs
    simp [replaceAttendee]

/-!
Concrete fixtures used by the witness theorems.
-/

/-- A fixed timestamp standing for `datetime.utcnow()` in the fixtures. -/
def dt0 : DateTime := ⟨2024, 1, 1, 0, 0, 0⟩

/-- Fixture event row. -/
def wEvent : EventRec :=
  { id := 1, title := "Launch", description := "", location := "", start_datetime := none,
    created_at := dt0 }

/-- Fixture attendee row of `wEvent`. -/
def wAttendee : AttendeeRec :=
  { id := 1, event_id := 1, name := "Ana", email := "", classification := "VIP",
    checked_in := false, created_at := dt0 }

/-- Fixture store: one event with one attendee. -/
def wStore : Store :=
  { events := [wEvent], attendees := [wAttendee], nextEventId := 2, nextAttendeeId := 2 }

/-- The fixture attendee after one toggle. -/
def wToggled : AttendeeRec := { wAttendee with checked_in := true }

/-- The fixture store after one toggle. -/
def wStoreT : Store := replaceAttendee wStore 1 wToggled

/-- Witness for C1 at the fixture store. -/
theorem checkin_toggle_and_set_witness :
    checkin_attendee wStore 1 none
      = .ok ({ wAttendee with checked_in := !wAttendee.checked_in },
             replaceAttendee wStore 1 { wAttendee with checked_in := !wAttendee.checked_in }) ∧
    checkin_attendee
        (replaceAttendee wStore 1 { wAttendee with checked_in := !wAttendee.checked_in }) 1 none
      = .ok (wAttendee, wStore) ∧
    checkin_attendee wStore 1 (some true)
      = .ok ({ wAttendee with checked_in := true },
             replaceAttendee wStore 1 { wAttendee with checked_in := true }) ∧
    checkin_attendee (replaceAttendee wStore 1 { wAttendee with checked_in := true }) 1 (some true)
      = .ok ({ wAttendee with checked_in := true },
             replaceAttendee wStore 1 { wAttendee with checked_in := true }) :=
  checkin_toggle_and_set wStore 1 wAttendee true (by decide) (by decide)

/-- Witness for C10 at the fixture store. -/
theorem checkin_frame_witness :
    wToggled.id = wAttendee.id ∧ wToggled.event_id = wAttendee.event_id ∧
    wToggled.name = wAttendee.name ∧ wToggled.email = wAttendee.email ∧
    wToggled.classification = wAttendee.classification ∧
    wToggled.created_at = wAttendee.created_at ∧
    wStoreT.events = wStore.events ∧ wStoreT.nextEventId = wStore.nextEventId ∧
    wStoreT.nextAttendeeId = wStore.nextAttendeeId ∧
    wStoreT.attendees = wStore.attendees.map (fun x => if x.id == 1 then wToggled else x) :=
  checkin_frame wStore 1 none wAttendee wToggled wStoreT (by decide) (by decide)

/-- C2: deleting an existing event removes its row and every attendee row
referencing it (the cascade), leaves all other attendee rows, and a
subsequent attendee listing for that event id answers 404, not an empty
list. -/
theorem delete_event_cascade (s : Store) (id : Nat) (e : EventRec)
    (hf : findEvent s id = some e) :
    delete_event s id = .ok (runOp (Op.deleteEvent id) s) ∧
    findEvent (runOp (Op.deleteEvent id) s) id = none ∧
    (runOp (Op.deleteEvent id) s).attendees.filter (fun a => a.event_id == id) = [] ∧
    (runOp (Op.deleteEvent id) s).attendees.length
        + (s.attendees.filter (fun a => a.event_id == id)).length = s.attendees.length ∧
    (runOp (Op.deleteEvent id) s).attendees
        = s.attendees.filter (fun a => !(a.event_id == id)) ∧
    list_attendees (runOp (Op.deleteEvent id) s) id none none = .error .notFound := by
  have hrun : runOp (Op.deleteEvent id) s
      = { s with
            events := s.events.filter (fun x => !(x.id == id))
            attendees := s.attendees.filter (fun a => !(a.event_id == id)) } := by
    simp [runOp, runOpE, delete_event, hf]
  have hfind : findEvent (runOp (Op.deleteEvent id) s) id = none := by
    rw [hrun]
    simp only [findEvent, List.find?_eq_none]
    intro x hx
    have := (List.mem_filter.mp hx).2
    simpa using this
  refine ⟨?_, hfind, ?_, ?_, ?_, ?_⟩
  · simp [delete_event, hf, hrun]
  · rw [hrun]
    simp only [List.filter_filter]
    have : ∀ a : AttendeeRec, ((a.event_id == id) && !(a.event_id == id)) = false := by
      intro a
      cases h : a.event_id == id <;> simp [h]
    simp [this]
  · rw [hrun]
    have h1 := @List.length_eq_length_filter_add _ s.attendees (fun a => a.event_id == id)
    simp only []
    omega
  · rw [hrun]
  · simp [list_attendees, hfind]

/-- Witness for C2 at the fixture store. -/
theorem delete_event_cascade_witness :
    delete_event wStore 1 = .ok (runOp (Op.deleteEvent 1) wStore) ∧
    findEvent (runOp (Op.deleteEvent 1) wStore) 1 = none ∧
    (runOp (Op.deleteEvent 1) wStore).attendees.filter (fun a => a.event_id == 1) = [] ∧
    (runOp (Op.deleteEvent 1) wStore).attendees.length
        + (wStore.attendees.filter (fun a => a.event_id == 1)).length
        = wStore.attendees.length ∧
    (runOp (Op.deleteEvent 1) wStore).attendees
        = wStore.attendees.filter (fun a => !(a.event_id == 1)) ∧
    list_attendees (runOp (Op.deleteEvent 1) wStore) 1 none none = .error .notFound :=
  delete_event_cascade wStore 1 wEvent (by decide)

/-- Update request that supplies `title` as the empty string. -/
def emptyTitlePayload : UpdateEventPayload :=
  { title := some "", description := none, location := none, start_datetime := none }

/-- C3 counterexample: `update_event` has no emptiness guard on `title`
(src/app.py:129-131 assigns whenever the value is not `None`), so updating
the fixture event with `title = ""` stores the empty title. -/
theorem update_event_empty_title_cex :
    (update_event wStore 1 emptyTitlePayload).map (fun r => r.2.events.map (fun e => e.title))
      = .ok [""] := by
  decide

/-- The row produced by the field-by-field assignments of `update_event`
(src/app.py:129-137), written as one record: each field present in the
request replaces the stored one, every absent field is kept. -/
def updatedEvent (e : EventRec) (p : UpdateEventPayload) : EventRec :=
  { e with
    title := p.title.getD e.title
    description := p.description.getD e.description
    location := p.location.getD e.location
    start_datetime :=
      match p.start_datetime with
      | none => e.start_datetime
      | some v => parse_datetime_or_none v }

/-- C3 (amended): for an existing event, `update_event` mutates exactly the
fields present in the request — an absent (or JSON null) `title` is kept —
and touches no attendee row; but a `title` supplied as the empty string IS
stored: the non-empty rule holds only at creation. -/
theorem update_event_partial_update (s : Store) (id : Nat) (p : UpdateEventPayload)
    (e : EventRec) (hf : findEvent s id = some e) :
    update_event s id p
      = .ok (event_to_dict (replaceEvent s id (updatedEvent e p)) (updatedEvent e p),
             replaceEvent s id (updatedEvent e p)) ∧
    (p.title = none → (updatedEvent e p).title = e.title) ∧
    (p.title = some "" → (updatedEvent e p).title = "") ∧
    (replaceEvent s id (updatedEvent e p)).attendees = s.attendees := by
  refine ⟨?_, ?_, ?_, ?_⟩
  · simp only [update_event, hf]
    obtain ⟨pt, pd, pl, ps⟩ := p
    cases pt <;> cases pd <;> cases pl <;> cases ps <;> simp [updatedEvent]
  · intro h
    simp [updatedEvent, h]
  · intro h
    simp [updatedEvent, h]
  · simp [replaceEvent]

/-- Update request touching only `location`. -/
def wUpdPayload : UpdateEventPayload :=
  { title := none, description := none, location := some "Hall A", start_datetime := none }

/-- Witness for the amended C3 at the fixture store. -/
theorem update_event_partial_update_witness :
    update_event wStore 1 wUpdPayload
      = .ok (event_to_dict (replaceEvent wStore 1 (updatedEvent wEvent wUpdPayload))
               (updatedEvent wEvent wUpdPayload),
             replaceEvent wStore 1 (updatedEvent wEvent wUpdPayload)) ∧
    (updatedEvent wEvent wUpdPayload).title = wEvent.title ∧
    (updatedEvent wEvent emptyTitlePayload).title = "" ∧
    (replaceEvent wStore 1 (updatedEvent wEvent wUpdPayload)).attendees = wStore.attendees :=
  ⟨(update_event_partial_update wStore 1 wUpdPayload wEvent (by decide)).1,
   (update_event_partial_update wStore 1 wUpdPayload wEvent (by decide)).2.1 rfl,
   (update_event_partial_update wStore 1 emptyTitlePayload wEvent (by decide)).2.2.1 rfl,
   (update_event_partial_update wStore 1 wUpdPayload wEvent (by decide)).2.2.2⟩

/-- C4: attendee creation checks the parent event first (404 when absent),
then rejects a missing or empty `name` and a classification outside the
allowed set (400, message listing the allowed values), defaults an omitted
classification to `General`, and on success persists a row with the
generated primary key and `created_at := now`. -/
theorem create_attendee_spec (s : Store) (eid : Nat) (p : CreateAttendeePayload)
    (now : DateTime) (n c : String) (e : EventRec) :
    (findEvent s eid = none → create_attendee s eid p now = .error .notFound) ∧
    (findEvent s eid = some e → p.name = none →
      create_attendee s eid p now = .error (.validation "name is required")) ∧
    (findEvent s eid = some e → p.name = some "" →
      create_attendee s eid p now = .error (.validation "name is required")) ∧
    (findEvent s eid = some e → p.name = some n → n ≠ "" → p.classification = some c →
      c ∉ VALID_CLASSIFICATIONS →
      create_attendee s eid p now = .error (.validation classificationMsg)) ∧
    (findEvent s eid = some e → p.name = some n → n ≠ "" → p.classification = none →
      create_attendee s eid p now
        = .ok (newAttendee s eid n (p.email.getD "") "General" now,
               addAttendee s (newAttendee s eid n (p.email.getD "") "General" now))) ∧
    (findEvent s eid = some e → p.name = some n → n ≠ "" → p.classification = some c →
      c ∈ VALID_CLASSIFICATIONS →
      create_attendee s eid p now
        = .ok (newAttendee s eid n (p.email.getD "") c now,
               addAttendee s (newAttendee s eid n (p.email.getD "") c now))) ∧
    (∀ v ∈ VALID_CLASSIFICATIONS, v.data <:+: classificationMsg.data) := by
  refine ⟨?_, ?_, ?_, ?_, ?_, ?_, ?_⟩
  · intro h
    simp [create_attendee, h]
  · intro hf h
    simp [create_attendee, hf, h]
  · intro hf h
    simp [create_attendee, hf, h]
  · intro hf hn hne hc hcv
    simp [create_attendee, hf, hn, hne, hc, hcv]
  · intro hf hn hne hc
    simp only [create_attendee, hf, hn, hc]
    rw [if_neg (by simpa using hne)]
    rw [if_neg (by simp; decide)]
    rfl
  · intro hf hn hne hc hcv
    simp only [create_attendee, hf, hn, hc]
    rw [if_neg (by simpa using hne)]
    rw [if_neg (by simpa using hcv)]
    rfl
  · decide

/-- Create request with classification omitted. -/
def wPayloadDefault : CreateAttendeePayload :=
  { name := some "Bob", email := none, classification := none }

/-- Create request with a classification outside the allowed set. -/
def wPayloadIntern : CreateAttendeePayload :=
  { name := some "Bob", email := none, classification := some "Intern" }

/-- Create request with no name. -/
def wPayloadNoName : CreateAttendeePayload :=
  { name := none, email := none, classification := none }

/-- Witness for C4 at the fixture store. -/
theorem create_attendee_spec_witness :
    create_attendee wStore 99 wPayloadDefault dt0 = .error .notFound ∧
    create_attendee wStore 1 wPayloadNoName dt0 = .error (.validation "name is required") ∧
    create_attendee wStore 1 wPayloadIntern dt0 = .error (.validation classificationMsg) ∧
    create_attendee wStore 1 wPayloadDefault dt0
      = .ok (newAttendee wStore 1 "Bob" "" "General" dt0,
             addAttendee wStore (newAttendee wStore 1 "Bob" "" "General" dt0)) :=
  ⟨(create_attendee_spec wStore 99 wPayloadDefault dt0 "Bob" "x" wEvent).1 (by decide),
   (create_attendee_spec wStore 1 wPayloadNoName dt0 "Bob" "x" wEvent).2.1 (by decide) rfl,
   (create_attendee_spec wStore 1 wPayloadIntern dt0 "Bob" "Intern" wEvent).2.2.2.1
     (by decide) rfl (by decide) rfl (by decide),
   (create_attendee_spec wStore 1 wPayloadDefault dt0 "Bob" "x" wEvent).2.2.2.2.1
     (by decide) rfl (by decide) rfl⟩

/-- C6: an operation that fails leaves the store unchanged — the session is
only committed on the success path, and the framework rolls back an
uncommitted session — and, in particular, an attendee update carrying a
valid new name together with an invalid classification fails with the
classification validation error: the already-assigned name is never
committed. -/
theorem update_attendee_atomic (s : Store) (aid : Nat) (p : UpdateAttendeePayload)
    (a : AttendeeRec) (n c : String) :
    (∀ op : Op, ∀ err : ApiError, runOpE op s = .error err → runOp op s = s) ∧
    (findAttendee s aid = some a → p.name = some n → n ≠ "" → p.classification = some c →
      c ∉ VALID_CLASSIFICATIONS →
      update_attendee s aid p = .error (.validation classificationMsg)) := by
  constructor
  · intro op err h
    simp [runOp, h]
  · intro hf hn hne hc hcv
    simp [update_attendee, applyName, applyClassification, hf, hn, hne, hc, hcv]

/-- Attendee update carrying a valid name and an invalid classification. -/
def wBadPayload : UpdateAttendeePayload :=
  { name := some "Zoe", email := none, classification := some "Intern", checked_in := none }

/-- Witness for C6 at the fixture store. -/
theorem update_attendee_atomic_witness :
    update_attendee wStore 1 wBadPayload = .error (.validation classificationMsg) ∧
    runOp (Op.updateAttendee 1 wBadPayload) wStore = wStore := by
  have h := (update_attendee_atomic wStore 1 wBadPayload wAttendee "Zoe" "Intern").2
    (by decide) rfl (by decide) rfl (by decide)
  refine ⟨h, ?_⟩
  exact (update_attendee_atomic wStore 1 wBadPayload wAttendee "Zoe" "Intern").1
    (Op.updateAttendee 1 wBadPayload) (.validation classificationMsg)
    (by simp [runOpE, h]; rfl)

/-!
Lemmas about the event list query.
-/

lemma eventsQuery_sublist (s : Store) (q : Option String) :
    (eventsQuery s q).Sublist (List.insertionSort eventLE s.events) := by
  cases q with
  | none => exact List.Sublist.refl _
  | some qs =>
    simp only [eventsQuery]
    by_cases hqs : qs = ""
    · rw [if_pos hqs]
    · rw [if_neg hqs]
      exact List.filter_sublist _

lemma eventsQuery_pairwise (s : Store) (q : Option String) :
    (eventsQuery s q).Pairwise eventLE :=
  List.Pairwise.sublist (eventsQuery_sublist s q)
    (List.sorted_insertionSort eventLE s.events)

lemma likeMatch_cons (p : Char) (ps t : List Char) :
    likeMatch (p :: ps) t
      = if p = '%' then t.tails.any (fun u => likeMatch ps u)
        else match t with
          | [] => false
          | c :: ts => (if p = '_' then true else p == c) && likeMatch ps ts := rfl

lemma char_toLower_self_or_letter (c : Char) :
    c.toLower = c ∨ (97 ≤ c.toLower.toNat ∧ c.toLower.toNat ≤ 122) := by
  unfold Char.toLower
  by_cases h : c.toNat ≥ 65 ∧ c.toNat ≤ 90
  · right
    rw [if_pos h]
    rw [Char.ofNat, dif_pos (Or.inl (by omega))]
    show 97 ≤ c.toNat + 32 ∧ c.toNat + 32 ≤ 122
    omega
  · left
    rw [if_neg h]

lemma char_toLower_nonletter (c d : Char) (hd : d.toNat < 97 ∨ 122 < d.toNat)
    (h : c.toLower = d) : c = d := by
  rcases char_toLower_self_or_letter c with h1 | h1
  · exact h1.symm.trans h
  · rw [h] at h1
    omega

lemma not_mem_lowerStr (qs : String) (d : Char) (hd : d.toNat < 97 ∨ 122 < d.toNat)
    (h : d ∉ qs.data) : d ∉ (lowerStr qs).data := by
  intro hmem
  have hmem' : d ∈ qs.data.map Char.toLower := hmem
  obtain ⟨c, hc, hcd⟩ := List.mem_map.mp hmem'
  exact h ((char_toLower_nonletter c d hd hcd) ▸ hc)

lemma likeMatch_append_pct :
    ∀ p : List Char, '%' ∉ p → '_' ∉ p →
      ∀ t, likeMatch (p ++ ['%']) t = true → p <+: t := by
  intro p
  induction p with
  | nil =>
    intro _ _ t _
    exact List.nil_prefix
  | cons c ps ih =>
    intro h1 h2 t h
    simp only [List.mem_cons, not_or] at h1 h2
    rw [List.cons_append, likeMatch_cons, if_neg (fun hc => h1.1 hc.symm)] at h
    cases t with
    | nil => simp at h
    | cons c' ts =>
      simp only [Bool.and_eq_true] at h
      obtain ⟨ha, hb⟩ := h
      rw [if_neg (fun hc => h2.1 hc.symm)] at ha
      have hcc : c = c' := by simpa using ha
      exact List.cons_prefix_cons.mpr ⟨hcc, ih h1.2 h2.2 ts hb⟩

lemma ilike_infix (title qs : String) (h1 : '%' ∉ qs.data) (h2 : '_' ∉ qs.data)
    (h : ilike title ("%" ++ qs ++ "%") = true) : containsCI title qs = true := by
  have h1' : '%' ∉ (lowerStr qs).data := not_mem_lowerStr qs '%' (by decide) h1
  have h2' : '_' ∉ (lowerStr qs).data := not_mem_lowerStr qs '_' (by decide) h2
  have hpat : (lowerStr ("%" ++ qs ++ "%")).data = '%' :: ((lowerStr qs).data ++ ['%']) := by
    show (("%" ++ qs ++ "%").data).map Char.toLower
      = '%' :: (qs.data.map Char.toLower ++ ['%'])
    rw [String.data_append, String.data_append]
    rw [show ("%" : String).data = ['%'] from rfl]
    simp only [List.map_append, List.map_cons, List.map_nil]
    rw [show Char.toLower '%' = '%' from rfl]
    simp
  unfold ilike at h
  rw [hpat, likeMatch_cons, if_pos rfl] at h
  obtain ⟨t', ht', hm⟩ := List.any_eq_true.mp h
  have hsuf : t' <:+ (lowerStr title).data := (List.mem_tails t' _).mp ht'
  have hpre : (lowerStr qs).data <+: t' := likeMatch_append_pct _ h1' h2' t' hm
  have hinf : (lowerStr qs).data <:+: (lowerStr title).data :=
    List.infix_iff_prefix_suffix.mpr ⟨t', hpre, hsuf⟩
  simpa [containsCI] using hinf

lemma mem_list_events (s : Store) (q : Option String) (limit offset : Nat) (d : EventDict)
    (hd : d ∈ list_events s q limit offset) :
    ∃ e, e ∈ s.events ∧ d = event_to_dict s e := by
  unfold list_events at hd
  obtain ⟨e, he, rfl⟩ := List.mem_map.mp hd
  refine ⟨e, ?_, rfl⟩
  have h1 : e ∈ eventsQuery s q :=
    List.Sublist.subset ((List.take_sublist _ _).trans (List.drop_sublist _ _)) he
  have h2 : e ∈ List.insertionSort eventLE s.events :=
    (eventsQuery_sublist s q).subset h1
  exact (List.perm_insertionSort eventLE s.events).subset h2

/-- C7 counterexample: the route passes `q` into the LIKE pattern
`f"%{q}%"`, so a query of `"%"` (pattern `%%%`) matches every title —
`GET /events?q=%` on the fixture store returns the event titled `"Launch"`
although that title does not contain `"%"` case-insensitively, refuting the
claim's universal containment conjunct. -/
theorem list_events_wildcard_cex :
    (list_events wStore (some "%") 100 0).map (fun d => d.title) = ["Launch"] ∧
    containsCI "Launch" "%" = false := by
  decide

/-- C7 (amended): the event list is sorted by `start_datetime` ascending
with nulls last; with a query string free of the SQL LIKE wildcards `%` and
`_` every returned event's title contains it case-insensitively (a query
containing a wildcard is interpreted as a LIKE pattern instead — see the
counterexample); the window is bounded by `limit`; every returned dict
serializes an event of the store; and an empty store yields the empty list
(the route cannot fail). -/
theorem list_events_spec (s : Store) (q : Option String) (limit offset : Nat) :
    (list_events s q limit offset).Pairwise
      (fun d₁ d₂ => optDtLE d₁.start_datetime d₂.start_datetime = true) ∧
    (∀ qs d, q = some qs → '%' ∉ qs.data → '_' ∉ qs.data →
      d ∈ list_events s q limit offset → containsCI d.title qs = true) ∧
    (list_events s q limit offset).length ≤ limit ∧
    (∀ d, d ∈ list_events s q limit offset → ∃ e, e ∈ s.events ∧ d = event_to_dict s e) ∧
    (s.events = [] → list_events s q limit offset = []) := by
  refine ⟨?_, ?_, ?_, ?_, ?_⟩
  · have hp : (((eventsQuery s q).drop offset).take limit).Pairwise eventLE :=
      List.Pairwise.sublist ((List.take_sublist _ _).trans (List.drop_sublist _ _))
        (eventsQuery_pairwise s q)
    unfold list_events
    exact List.pairwise_map.mpr hp
  · intro qs d hq hw1 hw2 hd
    subst hq
    by_cases hqs : qs = ""
    · subst hqs
      have h0 : (lowerStr "").data = [] := rfl
      simp only [containsCI, decide_eq_true_eq, h0]
      exact List.nil_infix
    · unfold list_events at hd
      obtain ⟨e, he, rfl⟩ := List.mem_map.mp hd
      have h1 : e ∈ eventsQuery s (some qs) :=
        List.Sublist.subset ((List.take_sublist _ _).trans (List.drop_sublist _ _)) he
      simp only [eventsQuery] at h1
      rw [if_neg hqs] at h1
      exact ilike_infix e.title qs hw1 hw2 (List.mem_filter.mp h1).2
  · unfold list_events
    simp only [List.length_map, List.length_take]
    omega
  · exact fun d hd => mem_list_events s q limit offset d hd
  · intro h
    have h0 : List.insertionSort eventLE s.events = [] := by
      rw [h]
      rfl
    cases q with
    | none => simp [list_events, eventsQuery, h0]
    | some qs => by_cases hqs : qs = "" <;> simp [list_events, eventsQuery, h0, hqs]

/-- Fixture event with a title containing a keyword and a datetime. -/
def wEvent2 : EventRec :=
  { id := 2, title := "Conference", description := "", location := "",
    start_datetime := some ⟨2024, 3, 1, 0, 0, 0⟩, created_at := dt0 }

/-- Fixture event with an earlier datetime. -/
def wEvent3 : EventRec :=
  { id := 3, title := "Concert", description := "", location := "",
    start_datetime := some ⟨2024, 2, 1, 0, 0, 0⟩, created_at := dt0 }

/-- Fixture store with three events (one with a null `start_datetime`). -/
def wStore2 : Store :=
  { events := [wEvent, wEvent2, wEvent3], attendees := [wAttendee],
    nextEventId := 4, nextAttendeeId := 2 }

/-- Fixture store with no rows. -/
def wStoreEmpty : Store :=
  { events := [], attendees := [], nextEventId := 1, nextAttendeeId := 1 }

/-- Witness for C7 at the fixture stores. -/
theorem list_events_spec_witness :
    containsCI (event_to_dict wStore2 wEvent2).title "conf" = true ∧
    (list_events wStore2 (some "conf") 100 0).length ≤ 100 ∧
    list_events wStoreEmpty none 100 0 = [] :=
  ⟨(list_events_spec wStore2 (some "conf") 100 0).2.1 "conf"
      (event_to_dict wStore2 wEvent2) rfl (by decide) (by decide) (by decide),
   (list_events_spec wStore2 (some "conf") 100 0).2.2.1,
   (list_events_spec wStoreEmpty none 100 0).2.2.2.2 rfl⟩

/-- C5: `attendees_count` of every serialized event — after any operation of
either controller, in every event-list response and in every single-event
response — is the live count of the attendee rows referencing that event;
no stored counter exists that could go stale. -/
theorem attendees_count_live (op : Op) (s : Store) (q : Option String)
    (limit offset : Nat) (id : Nat) :
    (∀ e, e ∈ (runOp op s).events →
      (event_to_dict (runOp op s) e).attendees_count
        = ((runOp op s).attendees.filter (fun a => a.event_id == e.id)).length) ∧
    (∀ d, d ∈ list_events s q limit offset →
      d.attendees_count = (s.attendees.filter (fun a => a.event_id == d.id)).length) ∧
    (∀ dd atts, get_event s id = .ok (dd, atts) →
      dd.attendees_count = (s.attendees.filter (fun a => a.event_id == dd.id)).length) := by
  refine ⟨?_, ?_, ?_⟩
  · intro e _
    rfl
  · intro d hd
    obtain ⟨e, _, rfl⟩ := mem_list_events s q limit offset d hd
    rfl
  · intro dd atts h
    unfold get_event at h
    cases hfe : findEvent s id with
    | none => rw [hfe] at h; exact absurd h (by simp)
    | some e =>
      rw [hfe] at h
      simp only [Except.ok.injEq, Prod.mk.injEq] at h
      obtain ⟨h1, h2⟩ := h
      subst h1
      rfl

/-- Witness for C5 at the fixture stores. -/
theorem attendees_count_live_witness :
    (event_to_dict (runOp (Op.deleteAttendee 1) wStore) wEvent).attendees_count
      = ((runOp (Op.deleteAttendee 1) wStore).attendees.filter
          (fun a => a.event_id == wEvent.id)).length ∧
    (event_to_dict wStore2 wEvent2).attendees_count
      = (wStore2.attendees.filter
          (fun a => a.event_id == (event_to_dict wStore2 wEvent2).id)).length ∧
    (event_to_dict wStore wEvent).attendees_count
      = (wStore.attendees.filter
          (fun a => a.event_id == (event_to_dict wStore wEvent).id)).length :=
  ⟨(attendees_count_live (Op.deleteAttendee 1) wStore none 100 0 1).1 wEvent (by decide),
   (attendees_count_live (Op.deleteAttendee 1) wStore2 (some "conf") 100 0 1).2.1
      (event_to_dict wStore2 wEvent2) (by decide),
   (attendees_count_live (Op.deleteAttendee 1) wStore none 100 0 1).2.2
      (event_to_dict wStore wEvent)
      (wStore.attendees.filter (fun a => a.event_id == wEvent.id)) (by decide)⟩

/-- The row inserted by `create_event` (src/app.py:119) for a payload whose
title is `t`. -/
def createdEvent (s : Store) (p : CreateEventPayload) (t : String) (now : DateTime) : EventRec :=
  { id := s.nextEventId
    title := t
    description := p.description.getD ""
    location := p.location.getD ""
    start_datetime := parse_datetime_or_none p.start_datetime
    created_at := now }

/-- Commit of `db.session.add(new_event)` for a fresh event row. -/
def addEvent (s : Store) (e : EventRec) : Store :=
  { s with events := s.events ++ [e], nextEventId := s.nextEventId + 1 }

/-- C8: the timestamp parsing used by event create and update maps an
absent, empty or unparsable string to an absent value and never raises;
some valid ISO-8601 string parses to its timestamp; and event creation
succeeds for every `start_datetime` value whatsoever (a malformed date is
silently dropped, not rejected). -/
theorem parse_datetime_lenient (str : String) (s : Store) (now : DateTime)
    (p : CreateEventPayload) (t : String) (ht : p.title = some t) (hne : t ≠ "") :
    parse_datetime_or_none none = none ∧
    parse_datetime_or_none (some "") = none ∧
    (fromisoformat str = none → parse_datetime_or_none (some str) = none) ∧
    parse_datetime_or_none (some "not-a-date") = none ∧
    parse_datetime_or_none (some "2024-05-01T10:30:00") = some ⟨2024, 5, 1, 10, 30, 0⟩ ∧
    create_event s p now
      = .ok (event_to_dict (addEvent s (createdEvent s p t now)) (createdEvent s p t now),
             addEvent s (createdEvent s p t now)) := by
  refine ⟨rfl, by decide, ?_, by decide, by decide, ?_⟩
  · intro h
    by_cases hs0 : str = "" <;> simp [parse_datetime_or_none, hs0, h]
  · simp [create_event, ht, hne, createdEvent, addEvent]

/-- Create request with a well-formed title and a malformed datetime. -/
def wCreatePayload : CreateEventPayload :=
  { title := some "Conf", description := none, location := none,
    start_datetime := some "garbage" }

/-- Witness for C8: the malformed string parses to `none`, the valid string
to its timestamp, and creation with the malformed datetime succeeds with an
absent stored value. -/
theorem parse_datetime_lenient_witness :
    parse_datetime_or_none (some "banana") = none ∧
    parse_datetime_or_none (some "2024-05-01T10:30:00") = some ⟨2024, 5, 1, 10, 30, 0⟩ ∧
    create_event wStore wCreatePayload dt0
      = .ok (event_to_dict (addEvent wStore (createdEvent wStore wCreatePayload "Conf" dt0))
               (createdEvent wStore wCreatePayload "Conf" dt0),
             addEvent wStore (createdEvent wStore wCreatePayload "Conf" dt0)) :=
  ⟨(parse_datetime_lenient "banana" wStore dt0 wCreatePayload "Conf" rfl
      (by decide)).2.2.1 (by decide),
   (parse_datetime_lenient "banana" wStore dt0 wCreatePayload "Conf" rfl
      (by decide)).2.2.2.2.1,
   (parse_datetime_lenient "banana" wStore dt0 wCreatePayload "Conf" rfl
      (by decide)).2.2.2.2.2⟩

/-!
Lemmas about the filename split used by the upload adapter.
-/

lemma splitOnChar_ne_nil (c : Char) (l : List Char) : splitOnChar c l ≠ [] := by
  cases l with
  | nil => simp [splitOnChar]
  | cons x xs =>
    simp only [splitOnChar]
    cases hs : splitOnChar c xs with
    | nil => simp
    | cons g gs => by_cases hx : x = c <;> simp [hx]

lemma splitOnChar_length_two (c : Char) (l : List Char) (h : c ∈ l) :
    2 ≤ (splitOnChar c l).length := by
  induction l with
  | nil => simp at h
  | cons x xs ih =>
    simp only [splitOnChar]
    cases hs : splitOnChar c xs with
    | nil => exact absurd hs (splitOnChar_ne_nil c xs)
    | cons g gs =>
      by_cases hx : x = c
      · simp [hx]
      · have hcx : c ∈ xs := by
          rcases List.mem_cons.mp h with h1 | h1
          · exact absurd h1.symm hx
          · exact h1
        have h2 := ih hcx
        rw [hs] at h2
        simp only [List.length_cons] at h2 ⊢
        rw [if_neg hx]
        simp only [List.length_cons]
        omega

lemma splitOnChar_of_not_mem (c : Char) (l : List Char) (h : c ∉ l) :
    splitOnChar c l = [l] := by
  induction l with
  | nil => rfl
  | cons x xs ih =>
    simp only [List.mem_cons, not_or] at h
    simp only [splitOnChar, ih h.2]
    rw [if_neg (fun hxc => h.1 hxc.symm)]

lemma getLast?_splitOnChar (c : Char) (l e : List Char) (h : c ∉ e) :
    (splitOnChar c (l ++ c :: e)).getLast? = some e := by
  induction l with
  | nil =>
    simp only [List.nil_append, splitOnChar, splitOnChar_of_not_mem c e h]
    simp
  | cons x xs ih =>
    have hne := splitOnChar_ne_nil c (xs ++ c :: e)
    cases hs : splitOnChar c (xs ++ c :: e) with
    | nil => exact absurd hs hne
    | cons g gs =>
      rw [hs] at ih
      have hlen := splitOnChar_length_two c (xs ++ c :: e) (by simp)
      rw [hs] at hlen
      cases gs with
      | nil => simp at hlen
      | cons g₂ gs₂ =>
        show (match splitOnChar c (xs ++ c :: e) with
          | [] => [[x]]
          | g :: gs => if x = c then [] :: g :: gs else (x :: g) :: gs).getLast? = some e
        rw [hs]
        show (if x = c then [] :: g :: g₂ :: gs₂ else (x :: g) :: g₂ :: gs₂).getLast? = some e
        by_cases hx : x = c
        · rw [if_pos hx]
          rw [List.getLast?_cons_cons]
          exact ih
        · rw [if_neg hx]
          rw [List.getLast?_cons_cons]
          rw [List.getLast?_cons_cons] at ih
          exact ih

/-- C9: the generated storage key lives under the fixed `events/` namespace
and ends with the dot-separated extension of the uploaded filename (for a
filename of the form `stem.ext` the extension is preserved exactly);
distinct random uuid components give distinct keys; and the returned URL is
the bucket/region host followed by exactly that key. -/
theorem s3_upload_spec (b r u u₂ f : String) :
    s3_key u f = "events/" ++ (u ++ ("." ++ s3_ext f)) ∧
    (∀ stem ex : String, '.' ∉ ex.data → s3_ext ((stem ++ ".") ++ ex) = ex) ∧
    (u ≠ u₂ → s3_key u f ≠ s3_key u₂ f) ∧
    upload_file_to_s3 b r u f
      = ("https://" ++ b ++ ".s3." ++ r ++ ".amazonaws.com/") ++ s3_key u f ∧
    s3_ext "photo.png" = "png" := by
  refine ⟨?_, ?_, ?_, ?_, by decide⟩
  · simp [s3_key, String.append_assoc]
  · intro stem ex hx
    obtain ⟨exd⟩ := ex
    simp only at hx
    have hdata : ((stem ++ ".") ++ String.mk exd).data = stem.data ++ '.' :: exd := by
      rw [String.data_append, String.data_append]
      have hdot : ("." : String).data = ['.'] := rfl
      rw [hdot]
      simp
    simp only [s3_ext, hdata, getLast?_splitOnChar '.' stem.data exd hx]
    rfl
  · intro hne heq
    apply hne
    have hd := congrArg String.data heq
    simp only [s3_key, String.data_append] at hd
    exact String.ext (List.append_cancel_left (List.append_cancel_right
      (List.append_cancel_right hd)))
  · simp [upload_file_to_s3, s3_key, String.append_assoc]

/-- Witness for C9 at concrete bucket, region, uuids and filename. -/
theorem s3_upload_spec_witness :
    s3_key "aaa" "photo.png" = "events/" ++ ("aaa" ++ ("." ++ s3_ext "photo.png")) ∧
    s3_ext (("img" ++ ".") ++ "jpeg") = "jpeg" ∧
    s3_key "aaa" "photo.png" ≠ s3_key "bbb" "photo.png" ∧
    upload_file_to_s3 "bkt" "us-east-1" "aaa" "photo.png"
      = ("https://" ++ "bkt" ++ ".s3." ++ "us-east-1" ++ ".amazonaws.com/")
          ++ s3_key "aaa" "photo.png" :=
  ⟨(s3_upload_spec "bkt" "us-east-1" "aaa" "bbb" "photo.png").1,
   (s3_upload_spec "bkt" "us-east-1" "aaa" "bbb" "photo.png").2.1 "img" "jpeg" (by decide),
   (s3_upload_spec "bkt" "us-east-1" "aaa" "bbb" "photo.png").2.2.1 (by decide),
   (s3_upload_spec "bkt" "us-east-1" "aaa" "bbb" "photo.png").2.2.2.1⟩

end Asistio
